import Mathlib

/-!
Shallow embedding of the fine-tuning script `src/train.py` (textual inversion /
custom diffusion trainer).  Python floats are modelled as exact rationals; the
tokenizer vocabulary is modelled as a list of strings; the embedding table and
its gradient are lists of rows, each row a list of rationals.  Every definition
below is transcribed from a specific place in `train.py`, noted in its comment.
-/

/-- Line 79: `mod_tokens = ['<%s>' % t for t in a.token.split('+')]` wraps each
raw token string in angle brackets. -/
def wrapToken (t : String) : String := "<" ++ t ++ ">"

/-- Line 79: the full list of modifier tokens actually registered, one per raw
token coming out of the split. -/
def modTokens (tokens : List String) : List String := tokens.map wrapToken

/-- A tokenizer is its ordered vocabulary (token ids are list positions). -/
structure Tokenizer where
  vocab : List String
deriving DecidableEq

/-- `tokenizer.add_tokens(tok)` (line 91): appends the token unless it is
already present; returns the tokenizer and the number of tokens added
(0 on collision, 1 otherwise).  The script assigns this count to
`num_added_tokens` but never inspects it. -/
def add_tokens (tk : Tokenizer) (t : String) : Tokenizer × ℕ :=
  if t ∈ tk.vocab then (tk, 0) else ({ vocab := tk.vocab ++ [t] }, 1)

/-- `tokenizer.convert_tokens_to_ids(tok)` (line 92): position of the token in
the vocabulary. -/
def convert_tokens_to_ids (tk : Tokenizer) (t : String) : ℕ :=
  tk.vocab.indexOf t

/-- Lines 88-93: the token-preparation loop.  For each raw token, add its
wrapped form to the tokenizer and record the resulting id. -/
def addModTokens : Tokenizer → List String → Tokenizer × List ℕ
  | tk, [] => (tk, [])
  | tk, t :: rest =>
    let tk1 := (add_tokens tk (wrapToken t)).1
    let id1 := convert_tokens_to_ids tk1 (wrapToken t)
    ((addModTokens tk1 rest).1, id1 :: (addModTokens tk1 rest).2)

/-- Lines 88-93 as a fallible step.  The `Except` shape records that the code
has no failure path here: it always returns `.ok`, whatever the vocabulary
already contains. -/
def prepTokens (tk : Tokenizer) (tokens : List String) :
    Except String (Tokenizer × List ℕ) :=
  Except.ok (addModTokens tk tokens)

/-- Observable events of `main` (lines 55-115), in program order. -/
inductive MainEv where
  | loadTextEncoder
  | loadTokenizer
  | loadUnet
  | loadVae
  | loadScheduler
  | fail (msg : String)
  | addToken (t : String)
  | trainStart
deriving DecidableEq

/-- The message of the two asserts at lines 82 and 85. -/
def assertMsg : String := "Provide equal num of tokens, terms and data folders"

/-- Lines 67-71: the five pretrained components are loaded first. -/
def loadEvents : List MainEv :=
  [MainEv.loadTextEncoder, MainEv.loadTokenizer, MainEv.loadUnet,
   MainEv.loadVae, MainEv.loadScheduler]

/-- Lines 88-96: vocabulary extension, then training. -/
def extTrace (tokens : List String) : List MainEv :=
  (modTokens tokens).map MainEv.addToken ++ [MainEv.trainStart]

/-- Event trace of `main` up to the start of training: model loading
(lines 67-71) happens before input parsing; the asserts at lines 82 and 85
fire afterwards on a length mismatch, stopping the run. -/
def mainTrace (tokens terms datas : List String)
    (termData : Option (List String)) : List MainEv :=
  loadEvents ++
    (if tokens.length = terms.length ∧ terms.length = datas.length then
      match termData with
      | some l =>
        if tokens.length = l.length then extTrace tokens
        else [MainEv.fail assertMsg]
      | none => extTrace tokens
    else [MainEv.fail assertMsg])

/-- Recognizer for the model-loading events. -/
def isLoadEv : MainEv → Bool
  | MainEv.loadTextEncoder => true
  | MainEv.loadTokenizer => true
  | MainEv.loadUnet => true
  | MainEv.loadVae => true
  | MainEv.loadScheduler => true
  | _ => false

/-- Recognizer for the failure event. -/
def isFailEv : MainEv → Bool
  | MainEv.fail _ => true
  | _ => false

/-- Negation of `isFailEv`, for trace prefixes before the failure. -/
def notFailEv (e : MainEv) : Bool := !(isFailEv e)

/-- Lines 191-193: the boolean mask over vocabulary indices.  Transcribed
exactly: the base compares against `mod_tokens_id[0]`, then the loop runs
`for i in range(len(mod_tokens_id[1:]))` and ANDs with
`!= mod_tokens_id[i]` (note: `i`, not `i+1`). -/
def indexNoUpdates (vocabLen : ℕ) (ids : List ℕ) : List Bool :=
  (List.range vocabLen).map (fun j =>
    (List.range ids.tail.length).foldl
      (fun acc i => acc && (j != ids.getD i 0))
      (j != ids.getD 0 0))

/-- Line 194: `grads.data[index_no_updates, :] = ...fill_(0)` zeroes every
gradient row selected by the mask. -/
def maskGrads (vocabLen : ℕ) (ids : List ℕ) (grads : List (List ℚ)) :
    List (List ℚ) :=
  List.zipWith (fun b row => if b then row.map (fun _ => (0 : ℚ)) else row)
    (indexNoUpdates vocabLen ids) grads

/-- Hyperparameters of `torch.optim.AdamW` as constructed at line 127:
`lr=a.lr, betas=(0.9, 0.999), weight_decay=0.01, eps=1e-08`. -/
structure AdamWCfg where
  lr : ℚ
  beta1 : ℚ
  beta2 : ℚ
  eps : ℚ
  wd : ℚ
deriving DecidableEq

/-- The configuration the script actually builds at line 127 with the default
`--lr 1e-5` (the `scale_lr` multiplication at lines 133-136 happens after
construction and does not reach the optimizer). -/
def trainAdamW : AdamWCfg :=
  { lr := 1 / 100000, beta1 := 9 / 10, beta2 := 999 / 1000,
    eps := 1 / 10 ^ 8, wd := 1 / 100 }

/-- One scalar parameter together with its AdamW state (first and second
moment), all zero-initialized by PyTorch on first use. -/
structure ParamState where
  p : ℚ
  m : ℚ
  v : ℚ
deriving DecidableEq

/-- One PyTorch AdamW update on a single coordinate at step `t` (1-based) with
gradient `g`: decoupled weight decay `p *= 1 - lr*wd` first, then the Adam
moment update and bias-corrected step.  `Rat.sqrt` stands in for the float
square root; it is exact at 0, the only argument reached on coordinates whose
gradient is zero at every step. -/
def adamwStep (h : AdamWCfg) (t : ℕ) (g : ℚ) (s : ParamState) : ParamState :=
  let p1 := s.p * (1 - h.lr * h.wd)
  let m1 := h.beta1 * s.m + (1 - h.beta1) * g
  let v1 := h.beta2 * s.v + (1 - h.beta2) * g ^ 2
  let bc1 := 1 - h.beta1 ^ t
  let bc2 := 1 - h.beta2 ^ t
  let denom := Rat.sqrt v1 / Rat.sqrt bc2 + h.eps
  { p := p1 - h.lr / bc1 * m1 / denom, m := m1, v := v1 }

/-- Lines 127 and 133-136 in program order: the optimizer is constructed with
`a.lr` (line 127); only afterwards is `a.lr` rescaled by the batch size and,
with priors, doubled (lines 133-136).  Returns (optimizer lr, final `a.lr`). -/
def optimSetup (lr0 : ℚ) (scaleLr : Bool) (batchSize : ℕ) (withPrior : Bool) :
    ℚ × ℚ :=
  let optimizerLr := lr0
  let aLr :=
    if scaleLr then
      let l1 := lr0 * (batchSize : ℚ)
      if withPrior then l1 * 2 else l1
    else lr0
  (optimizerLr, aLr)

/-- Squared error on one pair of scalars. -/
def sqErr (pt : ℚ × ℚ) : ℚ := (pt.1 - pt.2) ^ 2

/-- `F.mse_loss(p, t, reduction="mean")` on flattened tensors: mean of the
elementwise squared differences. -/
def mseFlat (p t : List ℚ) : ℚ := (((p.zip t).map sqErr).sum) / (p.length : ℚ)

/-- Mean-squared error between two batched tensors (batch of flattened
examples): flatten, then mean over all elements. -/
def mse (pred target : List (List ℚ)) : ℚ := mseFlat pred.flatten target.flatten

/-- `tensor.chunk(2)` along the batch dimension: the first chunk takes
`ceil(n/2)` examples, the second the rest. -/
def chunk2 (l : List (List ℚ)) : List (List ℚ) × List (List ℚ) :=
  (l.take ((l.length + 1) / 2), l.drop ((l.length + 1) / 2))

/-- Lines 179-185: the loss.  With priors, prediction and target are each
`chunk(2)`-split and the two mean-squared errors are summed; otherwise a single
mean-squared error over everything. -/
def trainLoss (withPrior : Bool) (pred target : List (List ℚ)) : ℚ :=
  if withPrior then
    mse (chunk2 pred).1 (chunk2 target).1 + mse (chunk2 pred).2 (chunk2 target).2
  else
    mse pred target

/-- Line 158: `num_epochs = math.ceil(train_steps / epoch_steps)` on positive
integers. -/
def numEpochs (es ts : ℕ) : ℕ := (ts + es - 1) / es

/-- Lines 166-221, step counting of one epoch: run up to `fuel` dataloader
steps from global step `g`; after each step the loop breaks once the global
step reaches `ts` (the check at lines 220-221 runs after the increment at
line 199). -/
def epochRun (ts : ℕ) : ℕ → ℕ → ℕ
  | 0, g => g
  | fuel + 1, g => if ts ≤ g + 1 then g + 1 else epochRun ts fuel (g + 1)

/-- Line 163: `for epoch in range(num_epochs)` — iterate `e` epochs. -/
def runEpochs (ts es : ℕ) : ℕ → ℕ → ℕ
  | 0, g => g
  | e + 1, g => runEpochs ts es e (epochRun ts es g)

/-- The whole training loop's global step counter: `numEpochs` epochs of
`es` dataloader steps each, from step 0, with the per-step break. -/
def trainRun (es ts : ℕ) : ℕ := runEpochs ts es (numEpochs es ts) 0

/-- One loop step (lines 166-221) with the periodic checkpoint/sample block:
at global steps divisible by `save_step` the sample generation (lines 208-216)
runs with no surrounding handler, so its error propagates. -/
def loopStepE (ss : ℕ) (sample : ℕ → Except String Unit) (g : ℕ) :
    Except String ℕ :=
  let g1 := g + 1
  if g1 % ss = 0 then
    match sample g1 with
    | Except.ok _ => Except.ok g1
    | Except.error e => Except.error e
  else Except.ok g1

/-- One epoch of fallible steps, with the break at lines 220-221. -/
def epochRunE (ss ts : ℕ) (sample : ℕ → Except String Unit) :
    ℕ → ℕ → Except String ℕ
  | 0, g => Except.ok g
  | fuel + 1, g =>
    match loopStepE ss sample g with
    | Except.error e => Except.error e
    | Except.ok g1 =>
      if ts ≤ g1 then Except.ok g1 else epochRunE ss ts sample fuel g1

/-- The training loop with the fallible periodic sample generation: an error
raised inside the checkpoint block aborts the remaining steps and epochs. -/
def runLoopE (es ts ss : ℕ) (sample : ℕ → Except String Unit) :
    Except String ℕ :=
  (List.range (numEpochs es ts)).foldl
    (fun acc _ =>
      match acc with
      | Except.error e => Except.error e
      | Except.ok g => epochRunE ss ts sample es g)
    (Except.ok 0)

/-- A sample-generation oracle that fails at global step 1 (e.g. non-finite
weights), as the claim's failure scenario. -/
def failingSample (g : ℕ) : Except String Unit :=
  if g = 1 then Except.error "sample generation failed: non-finite weights"
  else Except.ok ()

/-- A sample-generation oracle that always succeeds. -/
def okSample (_ : ℕ) : Except String Unit := Except.ok ()

/-- One `save_delta` call in custom mode: the global step it happens at and
whether the untouched pretrained copy `unet0` is passed to it. -/
structure SaveCall where
  step : ℕ
  withUnet0 : Bool
deriving DecidableEq

/-- Lines 200-206: the periodic saves.  At every global step divisible by
`save_step`, `save_delta(..., unet0=unet0)` runs — the untouched copy is
passed. -/
def periodicSaves (ts ss : ℕ) : List SaveCall :=
  (List.range ts).filterMap (fun s =>
    let g := s + 1
    if g % ss = 0 then some { step := g, withUnet0 := true } else none)

/-- Lines 200-206 plus 226-228: all custom-mode `save_delta` calls of a run.
The final call at line 228 omits the `unet0` argument. -/
def customSaves (ts ss : ℕ) : List SaveCall :=
  periodicSaves ts ss ++ [{ step := ts, withUnet0 := false }]

/-! Helper lemmas (not tied to a single claim). -/

theorem wrapToken_length (t : String) : (wrapToken t).length = t.length + 2 := by
  have h1 : "<".length = 1 := rfl
  have h2 : ">".length = 1 := rfl
  rw [wrapToken, String.length_append, String.length_append, h1, h2]
  omega

theorem wrapToken_ne (t : String) : wrapToken t ≠ t := by
  intro he
  have hl := congrArg String.length he
  rw [wrapToken_length] at hl
  omega

theorem mem_vocab_add_tokens (tk : Tokenizer) (x y : String) (h : x ∈ tk.vocab) :
    x ∈ (add_tokens tk y).1.vocab := by
  rw [add_tokens]
  by_cases hc : y ∈ tk.vocab
  · rw [if_pos hc]; exact h
  · rw [if_neg hc]; exact List.mem_append_left _ h

theorem self_mem_add_tokens (tk : Tokenizer) (y : String) :
    y ∈ (add_tokens tk y).1.vocab := by
  rw [add_tokens]
  by_cases hc : y ∈ tk.vocab
  · rw [if_pos hc]; exact hc
  · rw [if_neg hc]
    exact List.mem_append_right _ (List.mem_singleton.mpr rfl)

theorem mem_vocab_addModTokens (l : List String) :
    ∀ (tk : Tokenizer) (x : String), x ∈ tk.vocab →
      x ∈ (addModTokens tk l).1.vocab := by
  induction l with
  | nil => intro tk x h; exact h
  | cons hd tl ih =>
    intro tk x h
    simp only [addModTokens]
    exact ih _ x (mem_vocab_add_tokens tk x (wrapToken hd) h)

theorem mem_addModTokens_of_mem (l : List String) :
    ∀ (tk : Tokenizer) (t : String), t ∈ l →
      wrapToken t ∈ (addModTokens tk l).1.vocab := by
  induction l with
  | nil => intro tk t h; cases h
  | cons hd tl ih =>
    intro tk t h
    rcases List.mem_cons.mp h with rfl | hmem
    · simp only [addModTokens]
      exact mem_vocab_addModTokens tl _ _ (self_mem_add_tokens tk (wrapToken t))
    · simp only [addModTokens]
      exact ih _ t hmem

theorem epochRun_eq_min (ts es g : ℕ) (h : g < ts) :
    epochRun ts es g = min (g + es) ts := by
  induction es generalizing g with
  | zero => simp only [epochRun]; omega
  | succ k ih =>
    rw [epochRun]
    by_cases hb : ts ≤ g + 1
    · rw [if_pos hb]; omega
    · rw [if_neg hb, ih (g + 1) (by omega)]; omega

theorem runEpochs_reaches (es ts : ℕ) :
    ∀ (e g : ℕ), g < ts → ts ≤ g + e * es → g + e * es < ts + es →
      runEpochs ts es e g = ts := by
  intro e
  induction e with
  | zero =>
    intro g h1 h2 _
    exact absurd h2 (by omega)
  | succ k ih =>
    intro g h1 h2 h3
    rw [runEpochs, epochRun_eq_min ts es g h1]
    have h5 : (k + 1) * es = k * es + es := by ring
    by_cases hk : k = 0
    · subst hk
      have hts : ts ≤ g + es := by omega
      rw [Nat.min_eq_right (by omega)]
      rfl
    · have hke : es ≤ k * es := Nat.le_mul_of_pos_left es (by omega)
      have hlt : g + es < ts := by omega
      rw [Nat.min_eq_left (by omega)]
      exact ih (g + es) (by omega) (by omega) (by omega)

theorem numEpochs_bounds (es ts : ℕ) (hes : 1 ≤ es) :
    ts ≤ es * numEpochs es ts ∧ es * numEpochs es ts < ts + es := by
  unfold numEpochs
  have hd : es * ((ts + es - 1) / es) + (ts + es - 1) % es = ts + es - 1 :=
    Nat.div_add_mod _ _
  have hm : (ts + es - 1) % es < es := Nat.mod_lt _ (by omega)
  generalize hM : es * ((ts + es - 1) / es) = M at hd ⊢
  omega

/-! Claim theorems. -/

/-- C1: the claim fails on the code.  The masking does force the gradient of a
pretrained row (here row 1, with `mod_tokens_id = [3]`) to exactly zero, but
the optimizer built at line 127 is AdamW with `weight_decay=0.01`: its
decoupled weight decay multiplies every parameter by `1 - lr*wd` each step,
so the pretrained row moves from 1 to 9999999/10000000 after one optimizer
step — not bit-identical to its post-extension value. -/
theorem C1_weight_decay_changes_pretrained_row :
    (maskGrads 4 [3] [[2], [5], [7], [11]]).getD 1 [] = [0] ∧
    (adamwStep trainAdamW 1
        (((maskGrads 4 [3] [[2], [5], [7], [11]]).getD 1 []).getD 0 1)
        { p := 1, m := 0, v := 0 }).p = 9999999 / 10000000 ∧
    (9999999 / 10000000 : ℚ) ≠ 1 := by
  refine ⟨by decide, ?_, by norm_num⟩
  have hg : ((maskGrads 4 [3] [[2], [5], [7], [11]]).getD 1 []).getD 0 1 = 0 := by
    decide
  rw [hg]
  simp only [adamwStep, trainAdamW]
  norm_num

/-- C2: the claim fails on the code.  With two configured modifier tokens,
ids `[3, 5]` in a vocabulary of 8, the mask loop at lines 191-193 reads
`mod_tokens_id[i]` instead of `mod_tokens_id[i+1]`, so the last new-token id
(5) stays inside the zeroed set: its gradient row `[9]` is set to `[0]`,
although 5 is a configured new-token id (row 3 is correctly left alone). -/
theorem C2_last_new_token_row_zeroed :
    (5 : ℕ) ∈ [3, 5] ∧
    (maskGrads 8 [3, 5] [[1], [1], [1], [1], [1], [9], [1], [1]]).getD 5 []
      = [0] ∧
    (maskGrads 8 [3, 5] [[1], [1], [1], [1], [1], [9], [1], [1]]).getD 3 []
      = [1] := by
  decide

/-- C3: the claim fails on the code.  With `scale_lr=True`, `batch_size=2` and
`lr=1e-5`, the optimizer is constructed (line 127) with the unscaled rate
1/100000, while `a.lr` only becomes 1/50000 afterwards (lines 133-136); the
two disagree, so the optimizer does not run with the scaled rate. -/
theorem C3_optimizer_lr_not_scaled :
    optimSetup (1 / 100000) true 2 false = (1 / 100000, 1 / 50000) ∧
    (optimSetup (1 / 100000) true 2 false).1
      ≠ (optimSetup (1 / 100000) true 2 false).2 := by
  constructor
  · simp only [optimSetup]
    norm_num
  · simp only [optimSetup]
    norm_num

/-- C4 (counterexample): on the mismatched invocation
tokens `["a","b"]`, terms `["c"]`, data `["d"]`, the trace before the failure
event already contains model-loading events, so the program does not fail
before any pretrained model component is loaded. -/
theorem C4_counterexample :
    ((mainTrace ["a", "b"] ["c"] ["d"] none).takeWhile notFailEv).any isLoadEv
      = true ∧
    (mainTrace ["a", "b"] ["c"] ["d"] none).any isFailEv = true := by
  decide

/-- C4 (amended): for every invocation in which the modifier-token,
anchor-term and data-directory lists (or the prior-directory list when
supplied) have unequal lengths, the program fails with the descriptive assert
message right after the five pretrained components are loaded — before any
vocabulary extension and before training. -/
theorem C4_mismatch_fails_after_model_loading (tokens terms datas : List String)
    (termData : Option (List String))
    (h : ¬ (tokens.length = terms.length ∧ terms.length = datas.length ∧
        ∀ l, termData = some l → tokens.length = l.length)) :
    mainTrace tokens terms datas termData
      = loadEvents ++ [MainEv.fail assertMsg] ∧
    loadEvents.all isLoadEv = true := by
  refine ⟨?_, by decide⟩
  unfold mainTrace
  by_cases h1 : tokens.length = terms.length ∧ terms.length = datas.length
  · cases termData with
    | none =>
      exact absurd ⟨h1.1, h1.2, fun l hl => Option.noConfusion hl⟩ h
    | some l =>
      by_cases h2 : tokens.length = l.length
      · exact absurd ⟨h1.1, h1.2, fun x hx => by cases hx; exact h2⟩ h
      · rw [if_pos h1]
        show loadEvents ++
            (if tokens.length = l.length then extTrace tokens
             else [MainEv.fail assertMsg]) = loadEvents ++ [MainEv.fail assertMsg]
        rw [if_neg h2]
  · rw [if_neg h1]

/-- C4 witness: the amended theorem applied at the concrete mismatched
invocation `["a","b"] / ["c"] / ["d"]`, no prior directories. -/
theorem C4_mismatch_fails_after_model_loading_witness :
    mainTrace ["a", "b"] ["c"] ["d"] none
      = loadEvents ++ [MainEv.fail assertMsg] ∧
    loadEvents.all isLoadEv = true :=
  C4_mismatch_fails_after_model_loading ["a", "b"] ["c"] ["d"] none
    (fun hc => absurd hc.1 (by decide))

/-- C5 (counterexample): with `train_steps=2, save_step=1`, not every custom
`save_delta` call passes the untouched pretrained copy: the final call at
line 228 (step 2, `withUnet0 = false`) omits it. -/
theorem C5_counterexample :
    (customSaves 2 1).all SaveCall.withUnet0 = false ∧
    (customSaves 2 1).getLast? = some { step := 2, withUnet0 := false } := by
  decide

/-- C5 (amended): every periodic delta checkpoint (line 206) is computed with
access to the untouched pretrained copy `unet0`, but the final save at
training end (line 228) is invoked without it. -/
theorem C5_final_save_lacks_pristine_copy (ts ss : ℕ) :
    (periodicSaves ts ss).all SaveCall.withUnet0 = true ∧
    customSaves ts ss
      = periodicSaves ts ss ++ [{ step := ts, withUnet0 := false }] := by
  refine ⟨?_, rfl⟩
  rw [List.all_eq_true]
  intro c hc
  simp only [periodicSaves, List.mem_filterMap] at hc
  obtain ⟨s, _, heq⟩ := hc
  split at heq
  · cases heq
    rfl
  · exact Option.noConfusion heq

/-- C6: the claim fails on the code.  The periodic sample generation at
lines 208-216 has no surrounding exception handler, so a failure there (the
`failingSample` oracle errors at step 1) propagates and aborts the whole run
(`runLoopE` returns the error, never reaching step 2), while the same run
with a succeeding oracle completes all 2 steps. -/
theorem C6_sample_failure_aborts_training :
    runLoopE 1 2 1 failingSample
      = Except.error "sample generation failed: non-finite weights" ∧
    runLoopE 1 2 1 okSample = Except.ok 2 :=
  ⟨rfl, rfl⟩

/-- C7: for every configuration with at least one batch per epoch
(`1 ≤ es`), the loop runs `numEpochs es ts = ceil(ts/es)` epochs (the two
inequalities pin `numEpochs` as that ceiling) and performs exactly `ts`
global steps, breaking out of the epoch loop as soon as the count is
reached, whatever the divisibility of `ts` by `es`. -/
theorem C7_exact_step_count (es ts : ℕ) (hes : 1 ≤ es) :
    trainRun es ts = ts ∧
    ts ≤ es * numEpochs es ts ∧ es * numEpochs es ts < ts + es := by
  obtain ⟨hge, hlt⟩ := numEpochs_bounds es ts hes
  refine ⟨?_, hge, hlt⟩
  by_cases hts : ts = 0
  · subst hts
    have h0 : numEpochs es 0 = 0 := by
      unfold numEpochs
      exact Nat.div_eq_of_lt (by omega)
    rw [trainRun, h0]
    rfl
  · rw [trainRun]
    have hge2 : ts ≤ 0 + numEpochs es ts * es := by
      rw [Nat.mul_comm] at hge
      omega
    have hlt2 : 0 + numEpochs es ts * es < ts + es := by
      rw [Nat.mul_comm] at hlt
      omega
    exact runEpochs_reaches es ts (numEpochs es ts) 0 (by omega) hge2 hlt2

/-- C7 witness: the spec's own test case `steps_per_epoch=3, train_steps=7`:
exactly 7 steps over `ceil(7/3) = 3` epochs. -/
theorem C7_exact_step_count_witness :
    trainRun 3 7 = 7 ∧
    7 ≤ 3 * numEpochs 3 7 ∧ 3 * numEpochs 3 7 < 7 + 3 :=
  C7_exact_step_count 3 7 (by decide)

/-- C8 (counterexample): with `<x>` already in the vocabulary, preparing the
modifier token `x` does not fail: it returns `.ok`, leaves the vocabulary
unchanged and reuses the existing id 0. -/
theorem C8_counterexample :
    prepTokens { vocab := ["<x>"] } ["x"]
      = Except.ok ({ vocab := ["<x>"] }, [0]) ∧
    (prepTokens { vocab := ["<x>"] } ["x"]).isOk = true :=
  ⟨rfl, rfl⟩

/-- C8 (amended): for every modifier token whose wrapped form already exists
in the tokenizer vocabulary, the vocabulary-extension step does not fail:
`add_tokens` reports 0 tokens added and leaves the tokenizer unchanged, and
the preparation loop proceeds, returning the existing id of the token. -/
theorem C8_collision_does_not_fail (tk : Tokenizer) (t : String)
    (h : wrapToken t ∈ tk.vocab) :
    add_tokens tk (wrapToken t) = (tk, 0) ∧
    prepTokens tk [t]
      = Except.ok (tk, [tk.vocab.indexOf (wrapToken t)]) := by
  have ha : add_tokens tk (wrapToken t) = (tk, 0) := by
    rw [add_tokens, if_pos h]
  refine ⟨ha, ?_⟩
  simp only [prepTokens, addModTokens, ha, convert_tokens_to_ids]

/-- C8 witness: the amended theorem at the concrete tokenizer containing
`<y>` and `<x>`, colliding token `x` (existing id 1). -/
theorem C8_collision_does_not_fail_witness :
    add_tokens { vocab := ["<y>", "<x>"] } (wrapToken "x")
      = ({ vocab := ["<y>", "<x>"] }, 0) ∧
    prepTokens { vocab := ["<y>", "<x>"] } ["x"]
      = Except.ok ({ vocab := ["<y>", "<x>"] }, [1]) :=
  C8_collision_does_not_fail { vocab := ["<y>", "<x>"] } "x" (by decide)

/-- C9: with prior preservation, the loss of a batch that concatenates the
instance examples before the prior examples (as the collator at
lines 106-114 builds it, with equal counts) equals the mean-squared error of
the instance half plus the mean-squared error of the prior half; without
prior preservation it is the single mean-squared error over everything
(lines 179-185). -/
theorem C9_loss_splits_prior_batch
    (instP priorP instT priorT p t : List (List ℚ))
    (h1 : instP.length = priorP.length) (h2 : instT.length = priorT.length)
    (h3 : instP.length = instT.length) :
    trainLoss true (instP ++ priorP) (instT ++ priorT)
      = mse instP instT + mse priorP priorT ∧
    trainLoss false p t = mse p t := by
  constructor
  · have hp : ((instP ++ priorP).length + 1) / 2 = instP.length := by
      rw [List.length_append]
      omega
    have ht : ((instT ++ priorT).length + 1) / 2 = instT.length := by
      rw [List.length_append]
      omega
    rw [trainLoss, if_pos rfl]
    simp only [chunk2]
    rw [hp, ht, List.take_left, List.drop_left, List.take_left,
      List.drop_left]
  · rw [trainLoss, if_neg (by simp)]

/-- C9 witness: the theorem at a concrete two-example batch (instance `[[1]]`
against `[[0]]`, prior `[[2]]` against `[[0]]`) and a concrete
no-prior batch. -/
theorem C9_loss_splits_prior_batch_witness :
    trainLoss true ([[1]] ++ [[2]]) ([[0]] ++ [[0]])
      = mse [[1]] [[0]] + mse [[2]] [[0]] ∧
    trainLoss false [[3]] [[1]] = mse [[3]] [[1]] :=
  C9_loss_splits_prior_batch [[1]] [[2]] [[0]] [[0]] [[3]] [[1]] rfl rfl rfl

/-- C10: for every configured raw token `t`, the vocabulary entry actually
registered by the preparation loop is the wrapped string `<t>`
(`wrapToken t`), which differs from the raw string `t` itself. -/
theorem C10_registered_token_is_wrapped (tk : Tokenizer)
    (tokens : List String) (t : String) (h : t ∈ tokens) :
    wrapToken t ∈ (addModTokens tk tokens).1.vocab ∧ wrapToken t ≠ t :=
  ⟨mem_addModTokens_of_mem tokens tk t h, wrapToken_ne t⟩

/-- C10 witness: registering the raw token `sks` from an empty vocabulary
puts `<sks>` (not `sks`) in the vocabulary. -/
theorem C10_registered_token_is_wrapped_witness :
    wrapToken "sks" ∈ (addModTokens { vocab := [] } ["sks"]).1.vocab ∧
    wrapToken "sks" ≠ "sks" :=
  C10_registered_token_is_wrapped { vocab := [] } ["sks"] "sks" (by decide)
